import Mathlib

/-!
Verification of the Elytro wallet-extension background controller
(`apps/extension/src/background/walletController.ts`) against its
natural-language specification.

The controller is embedded shallowly: each controller method becomes a pure
Lean function over an explicit `World` state, returning the new state together
with an ordered trace of observable effects (service calls, session
deliveries). Collaborator services that are not part of the reviewed source
(approval service, session manager, chain service, account manager, history
manager, format/hash utilities, the `eth-rpc-errors` library) are modelled
from the specification's interface contracts; each such definition carries a
doc comment saying so.
-/

/-! ## Hexadecimal encoding (models viem `toHex` and `BigInt` hex parsing) -/

/-- Hex digit character for a value in `0..15` (lowercase, as produced by
JavaScript `Number.prototype.toString(16)` / viem `toHex`): code point 48 is
the character 0, code point 97 is the character a. -/
def hexDigitChar (n : Nat) : Char :=
  if n < 10 then Char.ofNat (48 + n) else Char.ofNat (87 + n)

/-- Numeric value of a hex digit character, `none` when not a hex digit.
Accepts the lowercase digits that `hexDigitChar` produces. -/
def hexCharVal (c : Char) : Option Nat :=
  let v := c.toNat
  if 48 ≤ v ∧ v ≤ 57 then some (v - 48)
  else if 97 ≤ v ∧ v ≤ 102 then some (v - 87)
  else none

/-- Big-endian hex digit list of a natural number, no leading zeros
(`0` renders as `['0']`), as in JavaScript `n.toString(16)`. -/
def natToHexDigits (n : Nat) : List Char :=
  if _h : n < 16 then [hexDigitChar n]
  else natToHexDigits (n / 16) ++ [hexDigitChar (n % 16)]
termination_by n
decreasing_by
  exact Nat.div_lt_self (by omega) (by omega)

/-- Horner-style hex parser over a character list with accumulator;
fails on any non-hex-digit character. -/
def parseHexAux : List Char → Nat → Option Nat
  | [], acc => some acc
  | c :: rest, acc =>
    match hexCharVal c with
    | some v => parseHexAux rest (acc * 16 + v)
    | none => none

/-- Models viem `toHex` on a natural number: `"0x"` followed by the lowercase
hex digits, no leading zeros. -/
def toHex (n : Nat) : String :=
  String.mk ('0' :: 'x' :: natToHexDigits n)

/-- Models `BigInt(hexString)` parsing as used when deserializing formatted
fields: requires a `0x` prefix followed by at least one hex digit. -/
def fromHex (s : String) : Option Nat :=
  match s.data with
  | '0' :: 'x' :: rest =>
    match rest with
    | [] => none
    | _ :: _ => parseHexAux rest 0
  | _ => none

theorem hexCharVal_hexDigitChar (n : Nat) (h : n < 16) :
    hexCharVal (hexDigitChar n) = some n := by
  interval_cases n <;> rfl

theorem parseHexAux_append (xs ys : List Char) (acc : Nat) :
    parseHexAux (xs ++ ys) acc =
      match parseHexAux xs acc with
      | some r => parseHexAux ys r
      | none => none := by
  induction xs generalizing acc with
  | nil => rfl
  | cons c rest ih =>
    simp only [List.cons_append, parseHexAux]
    cases hexCharVal c with
    | none => rfl
    | some v => exact ih (acc * 16 + v)

theorem parseHexAux_natToHexDigits (n : Nat) :
    ∀ acc : Nat, parseHexAux (natToHexDigits n) acc =
      some (acc * 16 ^ (natToHexDigits n).length + n) := by
  induction n using Nat.strong_induction_on with
  | _ n ih =>
    intro acc
    rw [natToHexDigits]
    by_cases h : n < 16
    · simp only [h, dif_pos]
      simp [parseHexAux, hexCharVal_hexDigitChar n h]
    · simp only [h, dif_neg, not_false_iff]
      have hdiv : n / 16 < n := Nat.div_lt_self (by omega) (by omega)
      rw [parseHexAux_append]
      rw [ih (n / 16) hdiv acc]
      simp only [parseHexAux, hexCharVal_hexDigitChar (n % 16) (Nat.mod_lt n (by omega))]
      have hlen : (natToHexDigits (n / 16) ++ [hexDigitChar (n % 16)]).length
          = (natToHexDigits (n / 16)).length + 1 := by simp
      rw [hlen]
      have hmod : 16 * (n / 16) + n % 16 = n := Nat.div_add_mod n 16
      have : (acc * 16 ^ (natToHexDigits (n / 16)).length + n / 16) * 16 + n % 16
          = acc * 16 ^ ((natToHexDigits (n / 16)).length + 1) + n := by
        rw [pow_succ]
        ring_nf
        omega
      rw [this]

theorem natToHexDigits_ne_nil (n : Nat) : natToHexDigits n ≠ [] := by
  rw [natToHexDigits]
  by_cases h : n < 16
  · simp [h]
  · simp [h]

/-- Round trip of the hex boundary encoding: parsing the rendered hex string
of any natural number recovers the number. -/
theorem fromHex_toHex (n : Nat) : fromHex (toHex n) = some n := by
  have hne := natToHexDigits_ne_nil n
  simp only [toHex, fromHex]
  cases hd : natToHexDigits n with
  | nil => exact absurd hd hne
  | cons c rest =>
    have := parseHexAux_natToHexDigits n 0
    rw [hd] at this
    simpa using this

/-! ## Data model

Entity records from the spec's data model (§3) and the source's type
imports (`TChainItem`, `TDAppInfo`, account/owner shapes). JavaScript string
truthiness (`!x.address`) is captured by testing for the empty string. -/

/-- A smart account held by the account manager: address, home chain,
deployment flag. -/
structure Account where
  address : String
  chainId : Nat
  isDeployed : Bool
deriving DecidableEq, Repr

/-- The keyring's owner identity (EOA); only its address is relevant here. -/
structure Owner where
  address : String
deriving DecidableEq, Repr

/-- A chain configuration entry (`TChainItem`): id plus mutable config. -/
structure ChainItem where
  id : Nat
  name : String
  rpcUrl : String
deriving DecidableEq, Repr

/-- A partial chain-config update (`Partial<TChainItem>` restricted to the
mutable config fields): absent fields leave the entry unchanged. -/
structure ChainPatch where
  name : Option String
  rpcUrl : Option String
deriving DecidableEq, Repr

/-- A pending approval request held by the approval service. -/
structure Approval where
  id : String
  origin : String
deriving DecidableEq, Repr

/-- Connecting dApp metadata (`TDAppInfo`); the controller reads its origin. -/
structure TDAppInfo where
  origin : String
  name : String
deriving DecidableEq, Repr

/-- A wallet-state-change event delivered to a dApp session. -/
inductive SessionMsg
  /-- `accountsChanged` payload: a list of (possibly undefined) addresses. -/
  | accountsChanged (addrs : List (Option String))
  /-- `chainChanged` payload: the chain id as a hex string. -/
  | chainChanged (hexId : String)
deriving DecidableEq, Repr

/-- Observable effects of a controller call, in execution order. -/
inductive Effect
  /-- `connectionManager.connect(dApp, chainId)`. -/
  | connect (origin : String) (chainId : Nat)
  /-- A session message delivered to one connected session. -/
  | deliver (sessionOrigin : String) (msg : SessionMsg)
  /-- `elytroSDK.resetSDK(chainConfig)`. -/
  | resetSDK (chain : ChainItem)
  /-- `walletClient.init(chainConfig)`. -/
  | walletClientInit (chain : ChainItem)
  /-- `accountManager.createAccountAsCurrent(ownerAddress, chainId)`. -/
  | createAccountAsCurrent (owner : String) (chainId : Nat)
  /-- `accountManager.switchAccountByChainId(chainId)`. -/
  | accountSwitchByChain (chainId : Nat)
  /-- `historyManager.switchAccount(account)`. -/
  | historySwitch (acc : Option Account)
deriving DecidableEq, Repr

/-- Combined state of the collaborating services, threaded explicitly through
the controller methods (the controller itself is stateless, spec §3). -/
structure World where
  /-- `keyring.owner`. -/
  owner : Option Owner
  /-- `approvalService.currentApproval`. -/
  currentApproval : Option Approval
  /-- Connection manager: connected `(origin, chainId)` pairs. -/
  connections : List (String × Nat)
  /-- Session manager: origins of connected dApp sessions. -/
  sessions : List String
  /-- `chainService.chains`. -/
  chains : List ChainItem
  /-- The id selecting `chainService.currentChain`. -/
  currentChainId : Option Nat
  /-- `accountManager.accounts`. -/
  accounts : List Account
  /-- `accountManager.currentAccount`. -/
  currentAccount : Option Account
  /-- `historyManager.isInitialized`. -/
  historyInit : Bool
  /-- The account whose history list is currently loaded. -/
  historyAccount : Option Account
deriving DecidableEq, Repr

/-! ## Error model -/

/-- Modelled from the spec: a typed RPC-style error from the
`eth-rpc-errors` library (`ethErrors.rpc.*`). -/
structure RpcError where
  code : Int
  message : String
deriving DecidableEq, Repr

/-- Modelled from the spec: `ethErrors.rpc.internal(msg?)` — code `-32603`,
default message when called without arguments. -/
def rpcInternal (msg : Option String) : RpcError :=
  ⟨-32603, msg.getD "Internal JSON-RPC error."⟩

/-- Modelled from the spec: `ethErrors.rpc.invalidParams()` — code `-32602`. -/
def rpcInvalidParams : RpcError :=
  ⟨-32602, "Invalid parameters."⟩

/-- A JavaScript exception: either a typed RPC error or a plain `Error`. -/
inductive JsError
  | rpc (e : RpcError)
  | err (msg : String)
deriving DecidableEq, Repr

/-- The `.message` property read by `signTypedData`'s catch block. -/
def JsError.message : JsError → String
  | .rpc e => e.message
  | .err m => m

/-! ## Collaborator services (modelled from the spec, §6) -/

/-- Modelled from the spec: `chainService.currentChain` resolves the current
chain id against the configured chain list. -/
def currentChain (w : World) : Option ChainItem :=
  w.currentChainId.bind (fun cid => w.chains.find? (fun c => c.id == cid))

/-- Modelled from the spec: `connectionManager.connect(dApp, chainId)` records
the dApp origin as connected on the given chain. -/
def connectionConnect (dApp : TDAppInfo) (chainId : Nat) (w : World) : World :=
  { w with connections := (dApp.origin, chainId) :: w.connections }

/-- Modelled from the spec: `sessionManager.broadcastMessageToDApp(origin, ...)`
delivers the message to exactly the connected sessions with that origin. -/
def broadcastToDApp (origin : String) (msg : SessionMsg) (w : World) : List Effect :=
  (w.sessions.filter (fun s => s == origin)).map (fun s => .deliver s msg)

/-- Modelled from the spec: `sessionManager.broadcastMessage(...)` delivers
the message to every connected session. -/
def broadcastAll (msg : SessionMsg) (w : World) : List Effect :=
  w.sessions.map (fun s => .deliver s msg)

/-- Modelled from the spec: `chainService.updateChain(id, config)` merges the
partial config into the chain entry with that id; ids are immutable. -/
def chainUpdateChain (chainId : Nat) (cfg : ChainPatch) (w : World) : World :=
  { w with chains := w.chains.map (fun c =>
      if c.id == chainId then
        { c with name := cfg.name.getD c.name, rpcUrl := cfg.rpcUrl.getD c.rpcUrl }
      else c) }

/-- Modelled from the spec: `chainService.switchChain(id)` selects the chain
with that id as current and returns its config, or returns `none` as a no-op
when no such chain is configured. -/
def chainSwitchChain (chainId : Nat) (w : World) : World × Option ChainItem :=
  match w.chains.find? (fun c => c.id == chainId) with
  | some c => ({ w with currentChainId := some chainId }, some c)
  | none => (w, none)

/-- Modelled from the spec: `accountManager.switchAccountByChainId(chainId)`
makes the account of that chain current. -/
def accountSwitchByChainId (chainId : Nat) (w : World) : World :=
  { w with currentAccount := w.accounts.find? (fun a => a.chainId == chainId) }

/-- Modelled from the spec: `accountManager.createAccountAsCurrent(owner, chainId)`
creates an account for that chain under the owner address and makes it
current; the derived address is opaque to the controller. -/
def accountCreateAsCurrent (ownerAddr : String) (chainId : Nat) (w : World) : World :=
  let acc : Account := ⟨ownerAddr ++ ":" ++ toString chainId, chainId, false⟩
  { w with accounts := w.accounts ++ [acc], currentAccount := some acc }

/-- The current account's address as read through JavaScript optional
chaining plus truthiness (`accountManager.currentAccount?.address`):
`none` when there is no current account or its address is the empty string. -/
def currentAccountAddress (w : World) : Option String :=
  w.currentAccount.bind (fun a => if a.address = "" then none else some a.address)

/-- The keyring owner's address under the same truthiness reading
(`keyring.owner?.address`). -/
def ownerAddress (w : World) : Option String :=
  w.owner.bind (fun o => if o.address = "" then none else some o.address)

/-! ## External collaborator functions

The SDK signer, the JSON parser, and the two typed-data hashing utilities are
external collaborators (spec §6, `@/utils/hash`); the controller is verified
for every behaviour of these functions, so they are parameters of the
embedding gathered in `Env`. -/

/-- An item of a structured (legacy, `eth_signTypedData` v1) typed-data list
(`TTypedDataItem`). -/
structure TTypedDataItem where
  name : String
  dataType : String
  value : String
deriving DecidableEq, Repr

/-- The result of `JSON.parse` on a typed-data string, opaque to the
controller. -/
structure ParsedTypedData where
  raw : String
deriving DecidableEq, Repr

/-- Modelled from the spec: the external collaborator functions the controller
calls synchronously inside the verified methods. Failures are thrown
JavaScript errors, carried in `Except` by their message. -/
structure Env where
  /-- `elytroSDK.signMessage(message, address)`. -/
  sdkSignMessage : String → String → Except String String
  /-- `JSON.parse` on the typed-data string argument. -/
  parseJson : String → Except String ParsedTypedData
  /-- `hashSignTypedData` (`@/utils/hash`): hashing strategy for parsed
  JSON typed data; may throw, may return no hash. -/
  hashSignTypedData : ParsedTypedData → Except String (Option String)
  /-- `hashEarlyTypedData` (`@/utils/hash`): hashing strategy for the
  structured list form; may throw, may return no hash. -/
  hashEarlyTypedData : List TTypedDataItem → Except String (Option String)

/-! ## WalletController methods

Each method from `walletController.ts` becomes a function
`World → ...`, returning its result together with the updated world and the
ordered effect trace. `async` methods with no internal `await` before their
service calls run those calls synchronously in source order, which the
sequential state threading reproduces. -/

/-- `WalletController.resolveApproval(id, data)` — delegates to
`approvalService.resolveApproval`. Modelled from the spec: resolving an id
that does not match the live approval is a silent no-op; a matching id
terminates the approval. -/
def resolveApproval (id : String) (dat : String) (w : World) : World :=
  match w.currentApproval with
  | some a => if a.id = id then { w with currentApproval := none } else w
  | none =>
    let _ := dat
    w

/-- `WalletController.rejectApproval(id)` — delegates to
`approvalService.rejectApproval`. Modelled from the spec: rejecting an id
that does not match the live approval is a silent no-op. -/
def rejectApproval (id : String) (w : World) : World :=
  match w.currentApproval with
  | some a => if a.id = id then { w with currentApproval := none } else w
  | none => w

/-- `WalletController.connectWallet(dApp, chainId)`: registers the connection
with the connection manager, then broadcasts `accountsChanged` with the
current account's address (possibly undefined) to the dApp's origin. -/
def connectWallet (dApp : TDAppInfo) (chainId : Nat) (w : World) :
    World × List Effect :=
  let w1 := connectionConnect dApp chainId w
  let payload : List (Option String) := [w1.currentAccount.map Account.address]
  (w1, .connect dApp.origin chainId ::
        broadcastToDApp dApp.origin (.accountsChanged payload) w1)

/-- Runtime shape of the `message` argument of `signMessage`: the `typeof`
check distinguishes strings from every other value. -/
inductive MessageArg
  | str (s : String)
  | notString
deriving DecidableEq, Repr

/-- `WalletController.signMessage(message)`: internal RPC error when the
current account or its address is missing, invalid-params RPC error when the
message is not a string, otherwise the SDK signature for the message and the
current account's address. -/
def signMessage (env : Env) (w : World) (message : MessageArg) :
    Except JsError String :=
  match currentAccountAddress w with
  | none => .error (.rpc (rpcInternal none))
  | some addr =>
    match message with
    | .notString => .error (.rpc rpcInvalidParams)
    | .str m => (env.sdkSignMessage m addr).mapError .err

/-- Runtime shape of the `typedData` argument of `signTypedData`:
a JSON-serialized string or a structured item list. -/
inductive TypedDataArg
  | str (s : String)
  | items (l : List TTypedDataItem)
deriving DecidableEq, Repr

/-- The hash computation inside `signTypedData`'s try block: the string input
goes through `JSON.parse` then `hashSignTypedData`; the structured list goes
through `hashEarlyTypedData`. -/
def typedDataHash (env : Env) (td : TypedDataArg) : Except String (Option String) :=
  match td with
  | .str s => (env.parseJson s).bind env.hashSignTypedData
  | .items l => env.hashEarlyTypedData l

/-- `WalletController.signTypedData(typedData)`: computes the hash by the
input-shape-dependent strategy, signs a truthy hash via `signMessage`, and
normalizes every thrown error into one internal RPC error carrying the
original error's message. -/
def signTypedData (env : Env) (w : World) (td : TypedDataArg) :
    Except JsError String :=
  match typedDataHash env td with
  | .error m => .error (.rpc (rpcInternal (some m)))
  | .ok hashOpt =>
    match hashOpt with
    | some h =>
      if h = "" then
        .error (.rpc (rpcInternal (some "Elytro: Cannot generate hash for typed data")))
      else
        match signMessage env w (.str h) with
        | .ok sig => .ok sig
        | .error e => .error (.rpc (rpcInternal (some e.message)))
    | none =>
      .error (.rpc (rpcInternal (some "Elytro: Cannot generate hash for typed data")))

/-- `WalletController.__onChainConfigChanged()`: fails fast when no current
chain config resolves; otherwise resets the SDK, reinitializes the raw chain
client, and broadcasts `chainChanged` (chain id as hex) to all sessions. -/
def _onChainConfigChanged (w : World) : Except JsError (List Effect) :=
  match currentChain w with
  | none => .error (.err "Elytro: No current chain config")
  | some cc =>
    .ok ([.resetSDK cc, .walletClientInit cc] ++
          broadcastAll (.chainChanged (toHex cc.id)) w)

/-- `WalletController.updateChainConfig(chainId, config)`: updates the chain
entry, then runs `__onChainConfigChanged` only when the updated chain is the
current one. The unawaited call's rejection never reaches the caller, so a
failing side-effect routine leaves the trace empty. -/
def updateChainConfig (chainId : Nat) (cfg : ChainPatch) (w : World) :
    World × List Effect :=
  let w1 := chainUpdateChain chainId cfg w
  if (currentChain w1).map ChainItem.id = some chainId then
    match _onChainConfigChanged w1 with
    | .ok effs => (w1, effs)
    | .error _ => (w1, [])
  else (w1, [])

/-- `WalletController._switchChain(chainId)`: silent no-op when the target is
already the current chain; otherwise switches via the chain service and runs
the chain-config-changed side effects when the switch produced a config. -/
def _switchChain (chainId : Nat) (w : World) : World × List Effect :=
  if (currentChain w).map ChainItem.id = some chainId then (w, [])
  else
    match chainSwitchChain chainId w with
    | (w1, some _) =>
      match _onChainConfigChanged w1 with
      | .ok effs => (w1, effs)
      | .error _ => (w1, [])
    | (w1, none) => (w1, [])

/-- `WalletController.createAccount(chainId)`: descriptive error without an
owner address; otherwise chain switch first, then account creation. -/
def createAccount (chainId : Nat) (w : World) :
    Except JsError (World × List Effect) :=
  match ownerAddress w with
  | none => .error (.err "Elytro: No owner address. Try create owner first.")
  | some addr =>
    let (w1, t1) := _switchChain chainId w
    .ok (accountCreateAsCurrent addr chainId w1,
         t1 ++ [.createAccountAsCurrent addr chainId])

/-- `WalletController.switchAccountByChain(chainId)`: chain switch (no-op when
already current), account switch, history reload for the new current account,
then an `accountsChanged` broadcast to all sessions. -/
def switchAccountByChain (chainId : Nat) (w : World) : World × List Effect :=
  let (w1, t1) := _switchChain chainId w
  let w2 := accountSwitchByChainId chainId w1
  let w3 := { w2 with historyInit := true, historyAccount := w2.currentAccount }
  (w3, t1 ++
    [.accountSwitchByChain chainId, .historySwitch w2.currentAccount] ++
    broadcastAll (.accountsChanged [w2.currentAccount.map Account.address]) w3)

/-! ## BigInt boundary marshaling (`@/utils/format`) -/

/-- A field of a user-operation-like object crossing the controller boundary:
a big-integer numeric field, a string field, or any other value kind. -/
inductive FieldValue
  | num (n : Nat)
  | str (s : String)
  | boolean (b : Bool)
deriving DecidableEq, Repr

/-- Modelled from the spec: `formatObjectWithBigInt` serializes every
big-integer field of the object into its hexadecimal string form; other
fields pass through unchanged. -/
def formatObjectWithBigInt (o : List (String × FieldValue)) :
    List (String × FieldValue) :=
  o.map (fun kv =>
    match kv.2 with
    | .num n => (kv.1, .str (toHex n))
    | _ => kv)

/-- Whether a key is subject to deformatting under an optional allow-list
(as in `deformatObjectWithBigInt(userOp, ['maxFeePerGas', ...])`). -/
def keyAllowed : Option (List String) → String → Bool
  | none, _ => true
  | some ks, k => ks.contains k

/-- Modelled from the spec: `deformatObjectWithBigInt` converts the selected
fields' hexadecimal string values back into big integers; non-parsing and
non-string fields pass through unchanged. -/
def deformatObjectWithBigInt (keys : Option (List String))
    (o : List (String × FieldValue)) : List (String × FieldValue) :=
  o.map (fun kv =>
    if keyAllowed keys kv.1 then
      match kv.2 with
      | .str s =>
        match fromHex s with
        | some n => (kv.1, .num n)
        | none => kv
      | _ => kv
    else kv)

/-! ## Method declaration table

Transcription of the declaration heads of `class WalletController`
(`walletController.ts` lines 23–276): method name, visibility, and whether
the method is declared `async`. The file's own header comment (lines 21–22)
demands: no getters, declare all methods async. -/

/-- Shape of one method declaration of the `WalletController` class. -/
structure MethodDecl where
  name : String
  isPublic : Bool
  isAsync : Bool
deriving DecidableEq, Repr

/-- The method declarations of `class WalletController`, in source order. -/
def walletControllerMethods : List MethodDecl :=
  [ ⟨"createNewOwner", true, true⟩,
    ⟨"getLockStatus", true, true⟩,
    ⟨"lock", true, true⟩,
    ⟨"unlock", true, true⟩,
    ⟨"getCurrentApproval", true, true⟩,
    ⟨"resolveApproval", true, true⟩,
    ⟨"rejectApproval", true, true⟩,
    ⟨"connectWallet", true, true⟩,
    ⟨"signUserOperation", true, true⟩,
    ⟨"sendUserOperation", true, true⟩,
    ⟨"signMessage", true, true⟩,
    ⟨"signTypedData", true, true⟩,
    ⟨"addNewHistory", true, true⟩,
    ⟨"getLatestHistories", true, false⟩,
    ⟨"_onChainConfigChanged", false, true⟩,
    ⟨"getCurrentChain", true, true⟩,
    ⟨"getChains", true, true⟩,
    ⟨"updateChainConfig", true, true⟩,
    ⟨"addChain", true, true⟩,
    ⟨"deleteChain", true, true⟩,
    ⟨"getAccounts", true, true⟩,
    ⟨"getCurrentAccount", true, true⟩,
    ⟨"createAccount", true, true⟩,
    ⟨"_switchChain", false, true⟩,
    ⟨"switchAccountByChain", true, true⟩,
    ⟨"createDeployUserOp", true, true⟩,
    ⟨"createTxUserOp", true, true⟩,
    ⟨"decodeUserOp", true, true⟩,
    ⟨"estimateGas", true, true⟩,
    ⟨"packUserOp", true, true⟩,
    ⟨"getENSInfoByName", true, true⟩,
    ⟨"removeAccount", true, true⟩ ]

/-! ## Concrete fixtures for witnesses -/

/-- A configured chain used in witnesses. -/
def chainA : ChainItem := ⟨1, "mainnet", "https://rpc.main.example"⟩

/-- A second configured chain used in witnesses. -/
def chainB : ChainItem := ⟨5, "testnet", "https://rpc.test.example"⟩

/-- A deployed account on `chainA`. -/
def accA : Account := ⟨"0xabc", 1, true⟩

/-- An account on `chainB`. -/
def accB : Account := ⟨"0xdef", 5, false⟩

/-- A connecting dApp used in witnesses. -/
def dAppEx : TDAppInfo := ⟨"https://dapp.example", "Example dApp"⟩

/-- A fully populated world: owner, pending approval, two sessions, two
chains with `chainA` current, current account `accA`. -/
def wEx : World :=
  { owner := some ⟨"0xowner"⟩
    currentApproval := some ⟨"approval-1", "https://dapp.example"⟩
    connections := []
    sessions := ["https://dapp.example", "https://other.example"]
    chains := [chainA, chainB]
    currentChainId := some 1
    accounts := [accA, accB]
    currentAccount := some accA
    historyInit := false
    historyAccount := none }

/-- `wEx` with no current account. -/
def wNoAcc : World := { wEx with currentAccount := none }

/-- A collaborator environment with total, deterministic functions. -/
def envEx : Env :=
  { sdkSignMessage := fun m a => .ok ("sig:" ++ m ++ ":" ++ a)
    parseJson := fun s => .ok ⟨s⟩
    hashSignTypedData := fun p => .ok (some ("0x1a" ++ p.raw))
    hashEarlyTypedData := fun _ => .ok (some "0x2b") }

/-! ## Claim theorems -/

/-- C1: `connectWallet(dApp, chainId)` first registers the connection with
the connection manager, then broadcasts `accountsChanged` carrying the
current account's address only to sessions whose origin equals
`dApp.origin`; no session with a different origin receives any message. -/
theorem connectWallet_broadcast_only_dapp_origin
    (dApp : TDAppInfo) (chainId : Nat) (w : World) :
    (connectWallet dApp chainId w).2.head? = some (.connect dApp.origin chainId) ∧
    (connectWallet dApp chainId w).1.connections = (dApp.origin, chainId) :: w.connections ∧
    (∀ o m, Effect.deliver o m ∈ (connectWallet dApp chainId w).2 →
      o = dApp.origin ∧
      m = .accountsChanged [w.currentAccount.map Account.address]) := by
  refine ⟨rfl, rfl, ?_⟩
  intro o m hmem
  simp only [connectWallet, connectionConnect, broadcastToDApp, List.mem_cons,
    List.mem_map, List.mem_filter] at hmem
  rcases hmem with h | ⟨s, ⟨_, hs⟩, hdel⟩
  · exact absurd h (by simp)
  · obtain ⟨rfl, rfl⟩ : s = o ∧
        SessionMsg.accountsChanged [w.currentAccount.map Account.address] = m := by
      simpa using hdel
    exact ⟨by simpa using hs, rfl⟩

/-- Witness for C1 at a concrete world: the session with the dApp's origin
receives the delivery, and the theorem pins its origin to the dApp's. -/
theorem connectWallet_broadcast_only_dapp_origin_witness :
    (Effect.deliver "https://dapp.example"
        (.accountsChanged [some "0xabc"]) ∈ (connectWallet dAppEx 1 wEx).2) ∧
    "https://dapp.example" = dAppEx.origin :=
  ⟨by decide,
   ((connectWallet_broadcast_only_dapp_origin dAppEx 1 wEx).2.2
      "https://dapp.example" (.accountsChanged [some "0xabc"]) (by decide)).1⟩

/-- C10: `connectWallet` has no missing-current-account precondition: with no
current account it still registers the connection and broadcasts
`accountsChanged` whose payload is the one-element list containing an
undefined address, instead of failing. -/
theorem connectWallet_no_account_no_error
    (dApp : TDAppInfo) (chainId : Nat) (w : World)
    (h : w.currentAccount = none) :
    (connectWallet dApp chainId w).1.connections = (dApp.origin, chainId) :: w.connections ∧
    (connectWallet dApp chainId w).2 =
      .connect dApp.origin chainId ::
        (w.sessions.filter (fun s => s == dApp.origin)).map
          (fun s => .deliver s (.accountsChanged [none])) := by
  constructor
  · rfl
  · simp [connectWallet, connectionConnect, broadcastToDApp, h]

/-- Witness for C10 at a concrete world with no current account. -/
theorem connectWallet_no_account_no_error_witness :
    wNoAcc.currentAccount = none ∧
    (connectWallet dAppEx 1 wNoAcc).2 =
      [.connect "https://dapp.example" 1,
       .deliver "https://dapp.example" (.accountsChanged [none])] := by
  refine ⟨rfl, ?_⟩
  rw [(connectWallet_no_account_no_error dAppEx 1 wNoAcc rfl).2]
  decide

/-- C8: resolving or rejecting an approval id that does not match the
currently pending approval (including when none is pending) leaves the
world — in particular the current approval — unchanged and raises no
error. -/
theorem stale_approval_silent_noop (id dat : String) (w : World)
    (h : ∀ a, w.currentApproval = some a → a.id ≠ id) :
    resolveApproval id dat w = w ∧ rejectApproval id w = w := by
  cases hc : w.currentApproval with
  | none => simp [resolveApproval, rejectApproval, hc]
  | some a => simp [resolveApproval, rejectApproval, hc, h a hc]

/-- Witness for C8: a non-matching id against the pending approval of a
concrete world changes nothing. -/
theorem stale_approval_silent_noop_witness :
    resolveApproval "stale-id" "response" wEx = wEx ∧
    rejectApproval "stale-id" wEx = wEx :=
  stale_approval_silent_noop "stale-id" "response" wEx
    (by intro a ha; cases ha; decide)

/-- C9 (counter-evidence, claim is a code bug): `getLatestHistories` is a
public method declared without `async` that returns its result directly,
so not every public `WalletController` method is asynchronous — contrary
to the class's own header comment demanding all methods be async. -/
theorem getLatestHistories_declared_sync :
    MethodDecl.mk "getLatestHistories" true false ∈ walletControllerMethods ∧
    ¬ (∀ m ∈ walletControllerMethods, m.isPublic = true → m.isAsync = true) := by
  decide

/-- Whether a field value is a big-integer numeric field. -/
def FieldValue.isNum : FieldValue → Bool
  | .num _ => true
  | _ => false

/-- C7: BigInt round-trip safety — deserializing the serialized form of an
object whose fields are all numeric yields the object back:
`deformatObjectWithBigInt (formatObjectWithBigInt o) = o`. -/
theorem deformat_format_roundtrip (o : List (String × FieldValue))
    (h : ∀ kv ∈ o, kv.2.isNum = true) :
    deformatObjectWithBigInt none (formatObjectWithBigInt o) = o := by
  induction o with
  | nil => rfl
  | cons kv rest ih =>
    have hkv := h kv (List.mem_cons_self kv rest)
    have hrest : ∀ kv ∈ rest, kv.2.isNum = true :=
      fun kv hm => h kv (List.mem_cons_of_mem _ hm)
    obtain ⟨k, v⟩ := kv
    cases v with
    | num n =>
      have htail := ih hrest
      simp only [formatObjectWithBigInt, deformatObjectWithBigInt,
        List.map_cons] at htail ⊢
      refine List.cons_eq_cons.mpr ⟨?_, htail⟩
      simp [keyAllowed, fromHex_toHex]
    | str s => simp [FieldValue.isNum] at hkv
    | boolean b => simp [FieldValue.isNum] at hkv

/-- Witness for C7: a concrete all-numeric user-operation object survives the
format/deformat boundary unchanged. -/
theorem deformat_format_roundtrip_witness :
    (∀ kv ∈ [("maxFeePerGas", FieldValue.num 255), ("nonce", FieldValue.num 0)],
      kv.2.isNum = true) ∧
    deformatObjectWithBigInt none
      (formatObjectWithBigInt
        [("maxFeePerGas", FieldValue.num 255), ("nonce", FieldValue.num 0)]) =
      [("maxFeePerGas", FieldValue.num 255), ("nonce", FieldValue.num 0)] :=
  ⟨by decide,
   deformat_format_roundtrip
     [("maxFeePerGas", FieldValue.num 255), ("nonce", FieldValue.num 0)]
     (by decide)⟩

/-- C5: `signMessage(message)` raises an internal RPC error when no current
account with an address exists, raises an invalid-params RPC error when the
message is not a string, and otherwise returns exactly what the SDK produces
for the message and the current account's address. -/
theorem signMessage_spec (env : Env) (w : World) (msg : MessageArg) :
    (currentAccountAddress w = none →
      signMessage env w msg = .error (.rpc (rpcInternal none))) ∧
    (∀ a, currentAccountAddress w = some a → msg = .notString →
      signMessage env w msg = .error (.rpc rpcInvalidParams)) ∧
    (∀ a s, currentAccountAddress w = some a → msg = .str s →
      signMessage env w msg = (env.sdkSignMessage s a).mapError .err) := by
  refine ⟨?_, ?_, ?_⟩
  · intro h
    simp [signMessage, h]
  · intro a ha hm
    simp [signMessage, ha, hm]
  · intro a s ha hm
    simp [signMessage, ha, hm]

/-- Witness for C5: a concrete world and SDK, a string message, a successful
signature carrying the current account's address. -/
theorem signMessage_spec_witness :
    currentAccountAddress wEx = some "0xabc" ∧
    signMessage envEx wEx (.str "hello") = .ok "sig:hello:0xabc" := by
  refine ⟨by decide, ?_⟩
  rw [(signMessage_spec envEx wEx (.str "hello")).2.2 "0xabc" "hello"
    (by decide) rfl]
  rfl

/-- C4: `signTypedData` computes the hash via the string-input strategy
(`JSON.parse` then `hashSignTypedData`) for a string argument and via
`hashEarlyTypedData` for a structured list; a truthy hash is signed via
`signMessage` and its signature returned; and every failure — parse or
hashing error, absent hash, or a `signMessage` error — surfaces as exactly
one internal RPC error carrying the original error's message. -/
theorem signTypedData_strategies_and_error_normalization
    (env : Env) (w : World) (td : TypedDataArg) :
    (∀ s, typedDataHash env (.str s) = (env.parseJson s).bind env.hashSignTypedData) ∧
    (∀ l, typedDataHash env (.items l) = env.hashEarlyTypedData l) ∧
    (∀ m, typedDataHash env td = .error m →
      signTypedData env w td = .error (.rpc (rpcInternal (some m)))) ∧
    (typedDataHash env td = .ok none →
      signTypedData env w td =
        .error (.rpc (rpcInternal
          (some "Elytro: Cannot generate hash for typed data")))) ∧
    (∀ h sig, typedDataHash env td = .ok (some h) → h ≠ "" →
      signMessage env w (.str h) = .ok sig →
      signTypedData env w td = .ok sig) ∧
    (∀ h e, typedDataHash env td = .ok (some h) → h ≠ "" →
      signMessage env w (.str h) = .error e →
      signTypedData env w td = .error (.rpc (rpcInternal (some e.message)))) := by
  refine ⟨fun _ => rfl, fun _ => rfl, ?_, ?_, ?_, ?_⟩
  · intro m hm
    simp [signTypedData, hm]
  · intro hm
    simp [signTypedData, hm]
  · intro h sig hm hne hsig
    simp [signTypedData, hm, hne, hsig]
  · intro h e hm hne hsig
    simp [signTypedData, hm, hne, hsig]

/-- Witness for C4: the concrete environment hashes a string input through
the JSON strategy and the call resolves to the signature of that hash. -/
theorem signTypedData_strategies_witness :
    typedDataHash envEx (.str "tdjson") = .ok (some "0x1atdjson") ∧
    "0x1atdjson" ≠ "" ∧
    signMessage envEx wEx (.str "0x1atdjson") = .ok "sig:0x1atdjson:0xabc" ∧
    signTypedData envEx wEx (.str "tdjson") = .ok "sig:0x1atdjson:0xabc" :=
  ⟨rfl, by decide, rfl,
   (signTypedData_strategies_and_error_normalization envEx wEx (.str "tdjson")).2.2.2.2.1
     "0x1atdjson" "sig:0x1atdjson:0xabc" rfl (by decide) rfl⟩

/-- `_switchChain` either leaves the world untouched or only moves
`currentChainId` to the requested chain. -/
theorem _switchChain_fst (chainId : Nat) (w : World) :
    (_switchChain chainId w).1 = w ∨
    (_switchChain chainId w).1 = { w with currentChainId := some chainId } := by
  unfold _switchChain
  split
  · exact Or.inl rfl
  · simp only [chainSwitchChain]
    cases hf : w.chains.find? (fun c => c.id == chainId) with
    | none => simp [hf]
    | some c =>
      simp only [hf]
      right
      split <;> rfl

/-- `_switchChain` never changes accounts, sessions, the current account or
the configured chain list. -/
theorem _switchChain_preserves (chainId : Nat) (w : World) :
    (_switchChain chainId w).1.accounts = w.accounts ∧
    (_switchChain chainId w).1.sessions = w.sessions ∧
    (_switchChain chainId w).1.currentAccount = w.currentAccount ∧
    (_switchChain chainId w).1.chains = w.chains := by
  rcases _switchChain_fst chainId w with h | h <;> rw [h] <;> exact ⟨rfl, rfl, rfl, rfl⟩

/-- After `_switchChain chainId`, when a chain with that id is configured,
the current chain resolves and its id is `chainId`. -/
theorem currentChain_after_switch (chainId : Nat) (w : World)
    (h : ∃ c ∈ w.chains, c.id = chainId) :
    (currentChain (_switchChain chainId w).1).map ChainItem.id = some chainId := by
  unfold _switchChain
  split
  next hg => exact hg
  next hg =>
    obtain ⟨c, hc, hcid⟩ := h
    have hsome : (w.chains.find? (fun c => c.id == chainId)).isSome := by
      rw [List.find?_isSome]
      exact ⟨c, hc, by simpa using hcid⟩
    obtain ⟨c0, hf⟩ := Option.isSome_iff_exists.mp hsome
    have hc0 : c0.id = chainId := by simpa using List.find?_some hf
    simp only [chainSwitchChain, hf]
    have hcur : currentChain { w with currentChainId := some chainId } = some c0 := by
      simp [currentChain, hf]
    split <;> simp [hcur, hc0]

/-- C2: `createAccount(chainId)` fails with the descriptive no-owner error
when the keyring owner has no address; otherwise the whole chain switch
(including its side effects) precedes `createAccountAsCurrent` in the effect
trace, and account creation runs in the post-switch state, whose current
chain id is `chainId` whenever that chain is configured. -/
theorem createAccount_owner_check_and_switch_order (chainId : Nat) (w : World) :
    (ownerAddress w = none →
      createAccount chainId w =
        .error (.err "Elytro: No owner address. Try create owner first.")) ∧
    (∀ a, ownerAddress w = some a →
      createAccount chainId w =
        .ok (accountCreateAsCurrent a chainId (_switchChain chainId w).1,
             (_switchChain chainId w).2 ++ [.createAccountAsCurrent a chainId]) ∧
      ((∃ c ∈ w.chains, c.id = chainId) →
        (currentChain (_switchChain chainId w).1).map ChainItem.id = some chainId)) := by
  constructor
  · intro h
    simp [createAccount, h]
  · intro a ha
    refine ⟨?_, currentChain_after_switch chainId w⟩
    simp [createAccount, ha]

/-- Witness for C2: with owner `0xowner` and configured chain `5`, account
creation succeeds after the switch, and the switched world's current chain
id is `5`. -/
theorem createAccount_owner_check_witness :
    ownerAddress wEx = some "0xowner" ∧
    (∃ c ∈ wEx.chains, c.id = 5) ∧
    createAccount 5 wEx =
      .ok (accountCreateAsCurrent "0xowner" 5 (_switchChain 5 wEx).1,
           (_switchChain 5 wEx).2 ++ [.createAccountAsCurrent "0xowner" 5]) ∧
    (currentChain (_switchChain 5 wEx).1).map ChainItem.id = some 5 := by
  have h := (createAccount_owner_check_and_switch_order 5 wEx).2 "0xowner" (by decide)
  exact ⟨by decide, ⟨chainB, by decide⟩, h.1, h.2 ⟨chainB, by decide⟩⟩

/-- C6: `switchAccountByChain(chainId)` leaves the chain untouched (silent
no-op, no reinitialization effects) when `chainId` is already current,
switches the current account to the one of that chain, reloads the history
manager scoped to the new current account, and broadcasts `accountsChanged`
with the new current account's address to every connected session. -/
theorem switchAccountByChain_spec (chainId : Nat) (w : World) :
    ((currentChain w).map ChainItem.id = some chainId →
      (switchAccountByChain chainId w).1.currentChainId = w.currentChainId ∧
      (∀ c, Effect.resetSDK c ∉ (switchAccountByChain chainId w).2)) ∧
    (switchAccountByChain chainId w).1.currentAccount =
      w.accounts.find? (fun a => a.chainId == chainId) ∧
    (switchAccountByChain chainId w).1.historyInit = true ∧
    (switchAccountByChain chainId w).1.historyAccount =
      (switchAccountByChain chainId w).1.currentAccount ∧
    Effect.accountSwitchByChain chainId ∈ (switchAccountByChain chainId w).2 ∧
    Effect.historySwitch (switchAccountByChain chainId w).1.currentAccount ∈
      (switchAccountByChain chainId w).2 ∧
    (∀ s ∈ w.sessions,
      Effect.deliver s (.accountsChanged
          [((switchAccountByChain chainId w).1.currentAccount).map Account.address]) ∈
        (switchAccountByChain chainId w).2) := by
  obtain ⟨hacc0, hsess0, _, _⟩ := _switchChain_preserves chainId w
  rcases hsw : _switchChain chainId w with ⟨w1, t1⟩
  rw [hsw] at hacc0 hsess0
  have hacc : w1.accounts = w.accounts := hacc0
  have hsess : w1.sessions = w.sessions := hsess0
  simp only [switchAccountByChain, hsw]
  refine ⟨?_, ?_, trivial, trivial, ?_, ?_, ?_⟩
  · intro hg
    have h1 : _switchChain chainId w = (w, []) := by
      unfold _switchChain
      simp [hg]
    rw [hsw] at h1
    injection h1 with e1 e2
    subst e1
    subst e2
    refine ⟨rfl, ?_⟩
    intro c
    simp [broadcastAll, accountSwitchByChainId]
  · simp [accountSwitchByChainId, hacc]
  · simp
  · simp [accountSwitchByChainId]
  · intro s hs
    simp only [broadcastAll, accountSwitchByChainId, List.mem_append, List.mem_map]
    right
    exact ⟨s, by simpa [hsess] using hs, rfl⟩

/-- Witness for C6 at a concrete world: switching to the already-current
chain `1` keeps the chain selection, and the session deliveries reach both
connected sessions with the chain-1 account's address. -/
theorem switchAccountByChain_spec_witness :
    (currentChain wEx).map ChainItem.id = some 1 ∧
    (switchAccountByChain 1 wEx).1.currentChainId = wEx.currentChainId ∧
    "https://other.example" ∈ wEx.sessions ∧
    Effect.deliver "https://other.example"
        (.accountsChanged [((switchAccountByChain 1 wEx).1.currentAccount).map Account.address]) ∈
      (switchAccountByChain 1 wEx).2 := by
  have h := switchAccountByChain_spec 1 wEx
  exact ⟨by decide, (h.1 (by decide)).1, by decide,
    h.2.2.2.2.2.2 "https://other.example" (by decide)⟩

/-- `chainService.updateChain` cannot change which chain id is current:
config patches leave every chain's id intact. -/
theorem currentChain_id_updateChain (chainId : Nat) (cfg : ChainPatch) (w : World) :
    (currentChain (chainUpdateChain chainId cfg w)).map ChainItem.id =
      (currentChain w).map ChainItem.id := by
  cases hc : w.currentChainId with
  | none => simp [currentChain, chainUpdateChain, hc]
  | some cid =>
    have hcomp : ((fun c : ChainItem => c.id == cid) ∘
        (fun c => if c.id == chainId then
          { c with name := cfg.name.getD c.name, rpcUrl := cfg.rpcUrl.getD c.rpcUrl }
        else c)) = fun c : ChainItem => c.id == cid := by
      funext c
      by_cases h : c.id = chainId <;> simp [Function.comp, h]
    simp only [currentChain, chainUpdateChain, hc, Option.some_bind]
    rw [List.find?_map, hcomp]
    cases hf : w.chains.find? (fun c => c.id == cid) with
    | none => rfl
    | some c => by_cases h : c.id = chainId <;> simp [h]

/-- C3: `updateChainConfig(chainId, config)` performs the SDK reset, the raw
chain client reinitialization, and a `chainChanged` broadcast (chain id as a
hex string) to all sessions if and only if `chainId` is the current chain's
id; updating a non-current chain triggers none of these effects; and the
side-effect routine itself fails fast when no current chain config
resolves. -/
theorem updateChainConfig_side_effects_iff_current
    (chainId : Nat) (cfg : ChainPatch) (w : World) :
    ((∃ c, Effect.resetSDK c ∈ (updateChainConfig chainId cfg w).2) ↔
      (currentChain w).map ChainItem.id = some chainId) ∧
    ((∃ c, Effect.walletClientInit c ∈ (updateChainConfig chainId cfg w).2) ↔
      (currentChain w).map ChainItem.id = some chainId) ∧
    (∀ s ∈ w.sessions,
      (Effect.deliver s (.chainChanged (toHex chainId)) ∈
          (updateChainConfig chainId cfg w).2 ↔
        (currentChain w).map ChainItem.id = some chainId)) ∧
    (∀ v : World, currentChain v = none →
      _onChainConfigChanged v = .error (.err "Elytro: No current chain config")) := by
  have hkey := currentChain_id_updateChain chainId cfg w
  have hsess : (chainUpdateChain chainId cfg w).sessions = w.sessions := rfl
  by_cases hg : (currentChain w).map ChainItem.id = some chainId
  · have hg1 : (currentChain (chainUpdateChain chainId cfg w)).map ChainItem.id
        = some chainId := by rw [hkey]; exact hg
    obtain ⟨cc, hcc⟩ : ∃ cc, currentChain (chainUpdateChain chainId cfg w) = some cc := by
      cases h : currentChain (chainUpdateChain chainId cfg w) with
      | none => rw [h] at hg1; simp at hg1
      | some cc => exact ⟨cc, rfl⟩
    have hccid : cc.id = chainId := by
      rw [hcc] at hg1
      simpa using hg1
    have htr : (updateChainConfig chainId cfg w).2 =
        [.resetSDK cc, .walletClientInit cc] ++
          broadcastAll (.chainChanged (toHex cc.id)) (chainUpdateChain chainId cfg w) := by
      simp only [updateChainConfig, _onChainConfigChanged, hcc]
      simp [hccid]
    refine ⟨?_, ?_, ?_, ?_⟩
    · simp only [htr]
      constructor
      · intro _
        exact hg
      · intro _
        exact ⟨cc, by simp⟩
    · simp only [htr]
      constructor
      · intro _
        exact hg
      · intro _
        exact ⟨cc, by simp⟩
    · intro s hs
      simp only [htr, hccid]
      constructor
      · intro _
        exact hg
      · intro _
        simp only [broadcastAll, List.mem_append, List.mem_map]
        right
        exact ⟨s, by simpa [hsess] using hs, rfl⟩
    · intro v hv
      simp [_onChainConfigChanged, hv]
  · have hg1 : ¬ (currentChain (chainUpdateChain chainId cfg w)).map ChainItem.id
        = some chainId := by rw [hkey]; exact hg
    have htr : (updateChainConfig chainId cfg w).2 = [] := by
      simp only [updateChainConfig, if_neg hg1]
    refine ⟨?_, ?_, ?_, ?_⟩
    · simp [htr, hg]
    · simp [htr, hg]
    · intro s _
      simp [htr, hg]
    · intro v hv
      simp [_onChainConfigChanged, hv]

/-- Witness for C3 at a concrete world: updating the current chain `1`
produces the reinitialization effects and delivers `chainChanged 0x1` to a
connected session; updating the non-current chain `5` produces no effects. -/
theorem updateChainConfig_side_effects_witness :
    (currentChain wEx).map ChainItem.id = some 1 ∧
    (∃ c, Effect.resetSDK c ∈
      (updateChainConfig 1 ⟨none, some "https://rpc.new.example"⟩ wEx).2) ∧
    "https://dapp.example" ∈ wEx.sessions ∧
    (Effect.deliver "https://dapp.example" (.chainChanged (toHex 1)) ∈
      (updateChainConfig 1 ⟨none, some "https://rpc.new.example"⟩ wEx).2) ∧
    ¬ (∃ c, Effect.resetSDK c ∈
      (updateChainConfig 5 ⟨none, some "https://rpc.new.example"⟩ wEx).2) := by
  have h1 := updateChainConfig_side_effects_iff_current 1
    ⟨none, some "https://rpc.new.example"⟩ wEx
  have h5 := updateChainConfig_side_effects_iff_current 5
    ⟨none, some "https://rpc.new.example"⟩ wEx
  refine ⟨by decide, h1.1.mpr (by decide), by decide,
    (h1.2.2.1 "https://dapp.example" (by decide)).mpr (by decide), ?_⟩
  intro hex
  have := h5.1.mp hex
  simp [wEx, currentChain, chainA, chainB] at this
